import Mathlib

/-!
Shallow embedding of the telliot-feeds reporter code:
`telliot_feeds/reporters/customized/conditional_reporter.py`,
`telliot_feed_examples/reporters/flashbot.py` and
`telliot_feeds/reporters/tip_listener/utils_tip_listener.py`,
with theorems checking the natural-language specification against it.
-/

namespace Telliot

/-- Python runtime errors that the embedded code can raise.  `malformedBranch`
marks the region of `conditions_met` (conditional_reporter.py line 113,
`eilf tellor_value`) that is not well-formed Python and therefore has no
semantics; because of that line the module cannot even be imported. -/
inductive PyError where
  | attributeError
  | typeError
  | zeroDivisionError
  | keyError
  | malformedBranch
  deriving DecidableEq, Repr

/-- The `GetDataBefore` dataclass of conditional_reporter.py (lines 14-18). -/
structure GetDataBefore where
  retrieved : Bool
  value : List Nat
  timestampRetrieved : Int
  deriving DecidableEq, Repr

/-- A datafeed; `conditions_met` only tests it against `None` and logs its
query descriptor, so only the descriptor is carried. -/
structure DataFeed where
  descriptor : String
  deriving DecidableEq, Repr

/-- Embeds `ConditionalReporter.get_tellor_latest_data`
(conditional_reporter.py lines 37-50).  The oracle read is passed in as
`read_result`: `none` models a read whose status is not ok (the function
then logs and returns `None`), `some d` a successful `getDataBefore` read. -/
def get_tellor_latest_data (datafeed : Option DataFeed)
    (read_result : Option GetDataBefore) : Option GetDataBefore :=
  match datafeed with
  | none => none
  | some _ => read_result

/-- Embeds `ConditionalReporter.conditions_met`
(conditional_reporter.py lines 90-116), statement by statement in source
order.  Line 103 (`tellor_value = tellor_data.value`) runs before the
`tellor_data is None` check of line 104, so when the oracle read yielded no
data the attribute access raises `AttributeError`.  The fall-through region
at lines 113-116 (`eilf tellor_value` followed by `else:`) is not
well-formed Python; reaching it is modelled as the `malformedBranch` error
(in fact the whole module fails to import because of that line). -/
def conditions_met (datafeed : Option DataFeed) (stale_timeout : Int)
    (read_result : Option GetDataBefore) (time : Int) : Except PyError Bool :=
  match datafeed with
  | none => Except.ok false
  | some _ =>
    let tellor_data := get_tellor_latest_data datafeed read_result
    let time_passed_since_tellor_report :=
      match tellor_data with
      | some d => time - d.timestampRetrieved
      | none => time
    match tellor_data with
    | none => Except.error PyError.attributeError
    | some d =>
      if !d.retrieved then Except.ok true
      else if time_passed_since_tellor_report > stale_timeout then Except.ok true
      else Except.error PyError.malformedBranch

/-- Outcome of one iteration of the reporting loop body: either control
reaches the `asyncio.sleep(self.wait_period)` call, or an exception escapes
the loop body (terminating the loop, since the body has no handler). -/
inductive CycleOutcome where
  | reachedSleep
  | crashed (e : PyError)
  deriving DecidableEq, Repr

/-- Embeds one iteration of `ConditionalReporter.report`
(conditional_reporter.py lines 123-142) up to the sleep call.  The body has
no try/except, so an exception from `conditions_met` escapes and terminates
the `while` loop.  `report_once` is inherited from `Tellor360Reporter`
(outside this repository); the loop discards its result, so it is not
modelled further. -/
def report_cycle (online has_native_token : Bool) (datafeed : Option DataFeed)
    (stale_timeout : Int) (read_result : Option GetDataBefore) (time : Int) :
    CycleOutcome :=
  if online then
    if has_native_token then
      match conditions_met datafeed stale_timeout read_result time with
      | Except.error e => CycleOutcome.crashed e
      | Except.ok _ => CycleOutcome.reachedSleep
    else CycleOutcome.reachedSleep
  else CycleOutcome.reachedSleep

/-- `telliot_core.utils.response.ResponseStatus`: `ok` defaults to `True`,
`error` to `None` (the exception field `e` is not modelled).  Used by
flashbot.py everywhere. -/
structure ResponseStatus where
  ok : Bool := true
  error : Option String := none
  deriving DecidableEq, Repr

/-- `FlashbotsReporter.expected_profit`: a float threshold, or the string
sentinel "YOLO" meaning "always report" (flashbot.py line 182). -/
inductive ExpectedProfit where
  | yolo
  | value (x : ℚ)
  deriving DecidableEq

/-- The fields of the Etherscan gas-price datapoint that
`ensure_profitable` uses (flashbot.py lines 126 and 133). -/
structure EtherscanFeeInfo where
  suggestBaseFee : ℚ
  SafeGasPrice : ℚ
  deriving DecidableEq, Repr

/-- The three lazily resolved fee fields stored on the reporter
(flashbot.py lines 69-71): `max_fee`, `priority_fee`, `legacy_gas_price`. -/
structure FeeConfig where
  priority_fee : Option ℚ
  max_fee : Option ℚ
  legacy_gas_price : Option ℚ
  deriving DecidableEq, Repr

/-- Fee resolution of the EIP-1559 branch (flashbot.py lines 124-140):
if `self.priority_fee is None` it becomes `fee_info[0].SafeGasPrice`;
then if `self.max_fee is None` it becomes `self.priority_fee + base_fee`
with `base_fee = fee_info[0].suggestBaseFee`. -/
def resolve_type2_fees (priority_fee max_fee : Option ℚ)
    (fee_info : EtherscanFeeInfo) : ℚ × ℚ :=
  let pf := priority_fee.getD fee_info.SafeGasPrice
  let mf := max_fee.getD (pf + fee_info.suggestBaseFee)
  (pf, mf)

/-- Fee resolution of the legacy branch (flashbot.py lines 158-160):
`if not self.legacy_gas_price` — falsy for both `None` and `0` — the gas
price fetched from ethgasstation is used and cached. -/
def resolve_legacy_gas (legacy_gas_price : Option ℚ)
    (ethgasstation_price : ℚ) : ℚ :=
  match legacy_gas_price with
  | none => ethgasstation_price
  | some g => if g = 0 then ethgasstation_price else g

/-- Combined fee resolution of `ensure_profitable` (flashbot.py lines
124-170): returns the fee value that multiplies the gas limit, and the
updated (sticky) fee fields written back to the reporter object. -/
def resolve_fees (transaction_type : Int) (fees : FeeConfig)
    (fee_info : EtherscanFeeInfo) (ethgasstation_price : ℚ) : ℚ × FeeConfig :=
  if transaction_type = 2 then
    let pm := resolve_type2_fees fees.priority_fee fees.max_fee fee_info
    (pm.2, { fees with priority_fee := some pm.1, max_fee := some pm.2 })
  else
    let g := resolve_legacy_gas fees.legacy_gas_price ethgasstation_price
    (g, { fees with legacy_gas_price := some g })

/-- `rev_usd = revenue / 1e18 * price_trb_usd` (flashbot.py line 174). -/
def rev_usd_calc (revenue : Int) (price_trb_usd : ℚ) : ℚ :=
  (revenue : ℚ) / 10 ^ 18 * price_trb_usd

/-- `costs_usd = costs / 1e9 * price_eth_usd` (flashbot.py line 175). -/
def costs_usd_calc (costs : ℚ) (price_eth_usd : ℚ) : ℚ :=
  costs / 10 ^ 9 * price_eth_usd

/-- `percent_profit = ((profit_usd) / costs_usd) * 100`
(flashbot.py line 179). -/
def percent_profit_calc (profit_usd costs_usd : ℚ) : ℚ :=
  profit_usd / costs_usd * 100

/-- The whole profit pipeline of flashbot.py lines 173-179, as a function
of the rewards, the resolved costs and the two USD prices. -/
def estimated_percent_profit (tips tb_reward : Int) (costs ptrb peth : ℚ) : ℚ :=
  percent_profit_calc
    (rev_usd_calc (tb_reward + tips) ptrb - costs_usd_calc costs peth)
    (costs_usd_calc costs peth)

/-- Embeds `FlashbotsReporter.ensure_profitable` (flashbot.py lines
91-188).  Inputs of the external reads are passed as arguments: `read_ok`
and `rewards` for the `getCurrentReward` oracle read, `price_eth_usd` and
`price_trb_usd` for `source.latest[0]` of the two price feeds after the
gathered fetches (`none` models a fetch that produced no value), `fee_info`
for the Etherscan datapoint and `ethgasstation_price` for the legacy gas
fetch.  The result is the returned `ResponseStatus` paired with the
updated fee fields, or the Python exception the body raises: a `None`
price hits `float * None` (`TypeError`, lines 174-175, reward price
first), and `costs_usd == 0` hits the division of line 179
(`ZeroDivisionError`). -/
def ensure_profitable (transaction_type : Int) (gas_limit : ℚ)
    (expected_profit : ExpectedProfit) (fees : FeeConfig)
    (read_ok : Bool) (rewards : Option (Int × Int))
    (price_eth_usd price_trb_usd : Option ℚ)
    (fee_info : EtherscanFeeInfo) (ethgasstation_price : ℚ) :
    Except PyError (ResponseStatus × FeeConfig) :=
  match read_ok, rewards with
  | false, _ =>
    Except.ok ({ ok := false,
                 error := some "Unable to retrieve current rewards" }, fees)
  | true, none =>
    Except.ok ({ ok := false,
                 error := some "Unable to retrieve current rewards" }, fees)
  | true, some (tips, tb_reward) =>
    let fv := resolve_fees transaction_type fees fee_info ethgasstation_price
    let costs := gas_limit * fv.1
    let revenue := tb_reward + tips
    match price_trb_usd with
    | none => Except.error PyError.typeError
    | some ptrb =>
      let rev_usd := rev_usd_calc revenue ptrb
      match price_eth_usd with
      | none => Except.error PyError.typeError
      | some peth =>
        let costs_usd := costs_usd_calc costs peth
        let profit_usd := rev_usd - costs_usd
        if costs_usd = 0 then Except.error PyError.zeroDivisionError
        else
          let percent_profit := percent_profit_calc profit_usd costs_usd
          match expected_profit with
          | ExpectedProfit.yolo => Except.ok ({ ok := true, error := none }, fv.2)
          | ExpectedProfit.value threshold =>
            if percent_profit < threshold then
              Except.ok ({ ok := false,
                           error := some "Estimated profitability below threshold." },
                         fv.2)
            else Except.ok ({ ok := true, error := none }, fv.2)

/-- The spec's acceptance rule for the profit decision (§4.2 step 6):
accept unconditionally on the "always report" sentinel, otherwise accept
iff `percentProfit >= expectedProfit`.  Stated from the spec's words, to be
compared with `ensure_profitable`. -/
def spec_accept (expected_profit : ExpectedProfit) (percent_profit : ℚ) : Bool :=
  match expected_profit with
  | ExpectedProfit.yolo => true
  | ExpectedProfit.value t => decide (t ≤ percent_profit)

/-- The one-transaction bundle of flashbot.py lines 291-293:
`bundle = [{"signed_transaction": submit_val_tx_signed.rawTransaction}]`. -/
def bundle (signed_tx : α) : List α := [signed_tx]

/-- The target blocks of the send loop (flashbot.py line 299):
`for target_block in [block + k for k in [1, 2, 3, 4, 5]]`. -/
def bundle_target_blocks (block : Int) : List Int :=
  [1, 2, 3, 4, 5].map (fun k => block + k)

/-- `result = results[-1]` (flashbot.py line 305): of the five pending
submissions, only the last one — the one targeting the furthest block — is
kept to be waited on; the others are dropped. -/
def awaited_target (block : Int) : Option Int :=
  (bundle_target_blocks block).getLast?

/-- A transaction receipt; only the fields flashbot.py touches. -/
structure Receipt where
  blockNumber : Int
  transactionHash : String
  deriving DecidableEq, Repr

/-- Embeds flashbot.py lines 311-332, after `result.wait()` returns:
`receipt_lookup` is `result.receipts()[0]` (`none` when that lookup raises
`TransactionNotFound`).  Returns the receipt handed back, the
`ResponseStatus` returned, and the new `last_submission_timestamp`.  In the
`TransactionNotFound` branch the code sets `status.error` and `status.e`
but never sets `status.ok = False`, so the status keeps its default
`ok = True`; in the success branch a fresh ok status is built and
`last_submission_timestamp` is reset to 0. -/
def submit_outcome (receipt_lookup : Option Receipt)
    (last_submission_timestamp : Int) :
    Option Receipt × ResponseStatus × Int :=
  match receipt_lookup with
  | none =>
    (none,
     { ok := true, error := some "Bundle was not executed" },
     last_submission_timestamp)
  | some tx_receipt =>
    (some tx_receipt, { ok := true, error := none }, 0)

/-- Python dict lookup `data[k]` on an association list in insertion order
(first entry wins; a dict has no duplicate keys, so the first entry is the
only one). -/
def pyLookup [DecidableEq κ] (data : List (κ × γ)) (k : κ) : Option γ :=
  (data.find? (fun e => e.1 = k)).map (·.2)

/-- `defaultdict(list)` append `m[q].append(v)`: extend the entry of `q` in
place, or add a new `(q, [v])` entry at the end (dict insertion order). -/
def ddAppend [DecidableEq β] (m : List (β × List δ)) (q : β) (v : δ) :
    List (β × List δ) :=
  match m with
  | [] => [(q, [v])]
  | (q', l) :: rest =>
    if q' = q then (q', l ++ [v]) :: rest else (q', l) :: ddAppend rest q v

/-- The first loop of `filter_batch_result` (utils_tip_listener.py lines
69-70): `for k in data: mapping[k[1]].append(k)`. -/
def fbr_mapping [DecidableEq β] (data : List ((α × β) × γ)) :
    List (β × List (α × β)) :=
  data.foldl (fun m e => ddAppend m e.1.2 e.1) []

/-- The body of the second loop of `filter_batch_result`
(utils_tip_listener.py lines 71-74) for one `mapping` entry `e`:
`for val in mapping[query_id]: results[query_id].append(data[val])`.
The dict lookup `data[val]` is modelled by `pyLookup`; a missing key would
raise `KeyError` (it never does, since every `val` comes from `data`'s
keys). -/
def fbr_step [DecidableEq α] [DecidableEq β] (data : List ((α × β) × γ))
    (results : List (β × List γ)) (e : β × List (α × β)) :
    Except PyError (List (β × List γ)) :=
  e.2.foldlM
    (fun results2 val =>
      match pyLookup data val with
      | some value => Except.ok (ddAppend results2 e.1 value)
      | none => Except.error PyError.keyError)
    results

/-- Embeds `filter_batch_result` (utils_tip_listener.py lines 54-76): the
grouping loop (`fbr_mapping`), then the rebuild loop
`for query_id in mapping: ...` (`fbr_step`), accumulating into the
`results` defaultdict. -/
def filter_batch_result [DecidableEq α] [DecidableEq β]
    (data : List ((α × β) × γ)) : Except PyError (List (β × List γ)) :=
  (fbr_mapping data).foldlM (fbr_step data) []

/-- C1: the claim says `conditions_met` returns true when the oracle read
yields no data, true when `retrieved = false`, true when the record is
stale, and false otherwise.  Evaluating the embedded code: with no prior
record the line `tellor_value = tellor_data.value` (run before the `None`
check) raises `AttributeError` instead of returning true, and the
"otherwise" case falls into the malformed `eilf tellor_value` region
(a `SyntaxError` that in fact prevents the module from importing at all);
only the `retrieved = false` and staleness rows behave as claimed. -/
theorem c1_conditions_met_eval :
    conditions_met (some ⟨"eth-usd-spot"⟩) 600 none 1000 =
        Except.error PyError.attributeError ∧
    conditions_met (some ⟨"eth-usd-spot"⟩) 600 (some ⟨false, [], 0⟩) 1000 =
        Except.ok true ∧
    conditions_met (some ⟨"eth-usd-spot"⟩) 600 (some ⟨true, [], 0⟩) 1000 =
        Except.ok true ∧
    conditions_met (some ⟨"eth-usd-spot"⟩) 600 (some ⟨true, [], 900⟩) 1000 =
        Except.error PyError.malformedBranch := by
  exact ⟨rfl, rfl, rfl, rfl⟩

/-- C2: the claim says a cycle whose oracle read fails still reaches the
sleep step.  Evaluating the embedded loop body: when the oracle read fails
(`get_tellor_latest_data` returns `None`), `conditions_met` raises
`AttributeError`; the loop body has no exception handler, so the exception
escapes and terminates the `while` loop before the sleep. -/
theorem c2_cycle_crash_eval :
    report_cycle true true (some ⟨"eth-usd-spot"⟩) 600 none 1000 =
      CycleOutcome.crashed PyError.attributeError := by
  exact rfl

/-- C3: the profitability arithmetic on the spec's worked example:
`gasLimit = 350000`, legacy gas price 50, `tips = 0`,
`timeBasedReward = 1e18`, TRB price 1 USD, ETH price 2000 USD gives
`costsUsd = 35`, `revenueUsd = 1`, `profitUsd = -34`,
`percentProfit = -34/35*100`, and `ensure_profitable` rejects
(`ok = false`) for every positive threshold. -/
theorem c3_profit_example (t : ℚ) (ht : 0 < t) :
    costs_usd_calc (350000 * 50) 2000 = 35 ∧
    rev_usd_calc (10 ^ 18) 1 = 1 ∧
    rev_usd_calc (10 ^ 18) 1 - costs_usd_calc (350000 * 50) 2000 = -34 ∧
    percent_profit_calc (-34) 35 = -34 / 35 * 100 ∧
    ensure_profitable 0 350000 (ExpectedProfit.value t) ⟨none, none, some 50⟩
        true (some (0, 10 ^ 18)) (some 2000) (some 1) ⟨0, 0⟩ 0 =
      Except.ok ({ ok := false,
                   error := some "Estimated profitability below threshold." },
                 ⟨none, none, some 50⟩) := by
  refine ⟨by norm_num [costs_usd_calc], by norm_num [rev_usd_calc],
          by norm_num [costs_usd_calc, rev_usd_calc],
          by norm_num [percent_profit_calc], ?_⟩
  have hlt : percent_profit_calc
      (rev_usd_calc ((10 : Int) ^ 18 + 0) 1 -
        costs_usd_calc (350000 * resolve_legacy_gas (some 50) 0) 2000)
      (costs_usd_calc (350000 * resolve_legacy_gas (some 50) 0) 2000) < t := by
    have : percent_profit_calc
        (rev_usd_calc ((10 : Int) ^ 18 + 0) 1 -
          costs_usd_calc (350000 * resolve_legacy_gas (some 50) 0) 2000)
        (costs_usd_calc (350000 * resolve_legacy_gas (some 50) 0) 2000) =
        -680 / 7 := by
      norm_num [percent_profit_calc, rev_usd_calc, costs_usd_calc,
        resolve_legacy_gas]
    rw [this]
    linarith
  simp only [ensure_profitable, resolve_fees]
  norm_num [resolve_legacy_gas, costs_usd_calc] at hlt ⊢
  exact hlt

/-- C3 witness: the example instantiated at threshold `t = 1`. -/
theorem c3_profit_example_witness :
    (0 : ℚ) < 1 ∧
    (costs_usd_calc (350000 * 50) 2000 = 35 ∧
     rev_usd_calc (10 ^ 18) 1 = 1 ∧
     rev_usd_calc (10 ^ 18) 1 - costs_usd_calc (350000 * 50) 2000 = -34 ∧
     percent_profit_calc (-34) 35 = -34 / 35 * 100 ∧
     ensure_profitable 0 350000 (ExpectedProfit.value 1) ⟨none, none, some 50⟩
         true (some (0, 10 ^ 18)) (some 2000) (some 1) ⟨0, 0⟩ 0 =
       Except.ok ({ ok := false,
                    error := some "Estimated profitability below threshold." },
                  ⟨none, none, some 50⟩)) :=
  ⟨by norm_num, c3_profit_example 1 (by norm_num)⟩

/-- Helper shared by the decision-rule theorems: when the reward read is
ok, both prices are present and `costs_usd` is nonzero, `ensure_profitable`
returns a status whose `ok` flag is exactly the spec's acceptance rule
applied to the computed percent profit, together with the sticky fee
fields. -/
theorem ensure_profitable_ok_shape (tt : Int) (gl : ℚ) (ep : ExpectedProfit)
    (fees : FeeConfig) (tips tbr : Int) (peth ptrb : ℚ)
    (fi : EtherscanFeeInfo) (egs : ℚ)
    (h : costs_usd_calc (gl * (resolve_fees tt fees fi egs).1) peth ≠ 0) :
    ∃ st : ResponseStatus,
      ensure_profitable tt gl ep fees true (some (tips, tbr))
          (some peth) (some ptrb) fi egs =
        Except.ok (st, (resolve_fees tt fees fi egs).2) ∧
      st.ok = spec_accept ep
        (estimated_percent_profit tips tbr
          (gl * (resolve_fees tt fees fi egs).1) ptrb peth) := by
  simp only [ensure_profitable, estimated_percent_profit]
  rw [if_neg h]
  cases ep with
  | yolo => exact ⟨_, rfl, rfl⟩
  | value t =>
    simp only [spec_accept]
    split_ifs with hlt
    · exact ⟨_, rfl, by simp [not_le.mpr hlt]⟩
    · exact ⟨_, rfl, by simp [not_lt.mp hlt]⟩

/-- C4: whenever the profit computation completes (reward read ok, both
prices present, nonzero `costs_usd`), the decision is: accept
unconditionally on the "YOLO" sentinel, otherwise accept iff
`percent_profit >= expected_profit` — i.e. the returned `ok` flag equals
the spec's acceptance rule `spec_accept`. -/
theorem c4_decision_rule (tt : Int) (gl : ℚ) (ep : ExpectedProfit)
    (fees : FeeConfig) (tips tbr : Int) (peth ptrb : ℚ)
    (fi : EtherscanFeeInfo) (egs : ℚ)
    (h : costs_usd_calc (gl * (resolve_fees tt fees fi egs).1) peth ≠ 0) :
    ∃ st : ResponseStatus,
      ensure_profitable tt gl ep fees true (some (tips, tbr))
          (some peth) (some ptrb) fi egs =
        Except.ok (st, (resolve_fees tt fees fi egs).2) ∧
      st.ok = spec_accept ep
        (estimated_percent_profit tips tbr
          (gl * (resolve_fees tt fees fi egs).1) ptrb peth) :=
  ensure_profitable_ok_shape tt gl ep fees tips tbr peth ptrb fi egs h

/-- C4 witness: the decision rule at a concrete input (legacy mode,
gas price 50, threshold sentinel "YOLO"). -/
theorem c4_decision_rule_witness :
    costs_usd_calc
        (350000 * (resolve_fees 0 ⟨none, none, some 50⟩ ⟨0, 0⟩ 0).1) 2000 ≠ 0 ∧
    (∃ st : ResponseStatus,
      ensure_profitable 0 350000 ExpectedProfit.yolo ⟨none, none, some 50⟩
          true (some (0, 10 ^ 18)) (some 2000) (some 1) ⟨0, 0⟩ 0 =
        Except.ok (st, (resolve_fees 0 ⟨none, none, some 50⟩ ⟨0, 0⟩ 0).2) ∧
      st.ok = spec_accept ExpectedProfit.yolo
        (estimated_percent_profit 0 (10 ^ 18)
          (350000 * (resolve_fees 0 ⟨none, none, some 50⟩ ⟨0, 0⟩ 0).1) 1 2000)) :=
  ⟨by norm_num [resolve_fees, resolve_legacy_gas, costs_usd_calc],
   c4_decision_rule 0 350000 ExpectedProfit.yolo ⟨none, none, some 50⟩
     0 (10 ^ 18) 2000 1 ⟨0, 0⟩ 0
     (by norm_num [resolve_fees, resolve_legacy_gas, costs_usd_calc])⟩

/-- C5 counterexample: the claim says zero estimated cost still yields a
defined accept-or-reject decision with no division-by-zero failure.  At a
concrete zero-cost input (EIP-1559 mode with `max_fee = 0`), the code
raises `ZeroDivisionError` at the `percent_profit` division of line 179
instead of returning any decision. -/
theorem c5_counterexample :
    ensure_profitable 2 350000 ExpectedProfit.yolo ⟨some 0, some 0, none⟩
        true (some (0, 10 ^ 18)) (some 2000) (some 1) ⟨1, 2⟩ 0 =
      Except.error PyError.zeroDivisionError := by
  norm_num [ensure_profitable, resolve_fees, resolve_type2_fees, costs_usd_calc]

/-- C5 amended: the percent-profit computation is *not* guarded against
`costs_usd = 0`: every input that reaches the profit arithmetic with zero
`costs_usd` makes `ensure_profitable` raise `ZeroDivisionError` rather
than return a decision. -/
theorem c5_zero_costs_raises (tt : Int) (gl : ℚ) (ep : ExpectedProfit)
    (fees : FeeConfig) (tips tbr : Int) (peth ptrb : ℚ)
    (fi : EtherscanFeeInfo) (egs : ℚ)
    (h : costs_usd_calc (gl * (resolve_fees tt fees fi egs).1) peth = 0) :
    ensure_profitable tt gl ep fees true (some (tips, tbr))
        (some peth) (some ptrb) fi egs =
      Except.error PyError.zeroDivisionError := by
  simp only [ensure_profitable]
  rw [if_pos h]

/-- C5 amended witness: the zero-cost crash at a concrete input. -/
theorem c5_zero_costs_raises_witness :
    costs_usd_calc
        (350000 * (resolve_fees 2 ⟨some 0, some 0, none⟩ ⟨1, 2⟩ 0).1) 2000 = 0 ∧
    ensure_profitable 2 350000 ExpectedProfit.yolo ⟨some 0, some 0, none⟩
        true (some (0, 10 ^ 18)) (some 2000) (some 1) ⟨1, 2⟩ 0 =
      Except.error PyError.zeroDivisionError :=
  ⟨by norm_num [resolve_fees, resolve_type2_fees, costs_usd_calc],
   c5_zero_costs_raises 2 350000 ExpectedProfit.yolo ⟨some 0, some 0, none⟩
     0 (10 ^ 18) 2000 1 ⟨1, 2⟩ 0
     (by norm_num [resolve_fees, resolve_type2_fees, costs_usd_calc])⟩

/-- C6 counterexample: the claim says a missing price makes estimation
return a `PriceUnavailableError`-style failure status.  At a concrete
input with the reward-token price missing, the code instead proceeds to
the profit arithmetic and raises an unhandled `TypeError`
(`float * None`, flashbot.py line 174) — no status is returned at all. -/
theorem c6_counterexample :
    ensure_profitable 0 350000 ExpectedProfit.yolo ⟨none, none, some 50⟩
        true (some (0, 10 ^ 18)) (some 2000) none ⟨0, 0⟩ 0 =
      Except.error PyError.typeError := by
  rfl

/-- C6 amended: the two USD prices are fetched together (an
`asyncio.gather`), but a missing price is never checked: for every input
whose gas-asset or reward-asset price is absent, `ensure_profitable`
raises an unhandled `TypeError` when the missing price is first used in
the profit arithmetic, instead of returning a failure status. -/
theorem c6_missing_price_raises (tt : Int) (gl : ℚ) (ep : ExpectedProfit)
    (fees : FeeConfig) (tips tbr : Int) (peth ptrb : Option ℚ)
    (fi : EtherscanFeeInfo) (egs : ℚ)
    (h : peth = none ∨ ptrb = none) :
    ensure_profitable tt gl ep fees true (some (tips, tbr)) peth ptrb fi egs =
      Except.error PyError.typeError := by
  cases ptrb with
  | none => rfl
  | some p =>
    rcases h with h | h
    · subst h
      rfl
    · exact absurd h (by simp)

/-- C6 amended witness: the missing-price crash at a concrete input. -/
theorem c6_missing_price_raises_witness :
    ((none : Option ℚ) = none ∨ (some (1 : ℚ)) = none) ∧
    ensure_profitable 0 350000 ExpectedProfit.yolo ⟨none, none, some 50⟩
        true (some (0, 10 ^ 18)) none (some 1) ⟨0, 0⟩ 0 =
      Except.error PyError.typeError :=
  ⟨Or.inl rfl,
   c6_missing_price_raises 0 350000 ExpectedProfit.yolo ⟨none, none, some 50⟩
     0 (10 ^ 18) none (some 1) ⟨0, 0⟩ 0 (Or.inl rfl)⟩

/-- Unfolding `resolve_fees` in the EIP-1559 case. -/
theorem resolve_fees_type2 (fees : FeeConfig) (fi : EtherscanFeeInfo) (egs : ℚ) :
    resolve_fees 2 fees fi egs =
      ((resolve_type2_fees fees.priority_fee fees.max_fee fi).2,
       { fees with
           priority_fee := some (resolve_type2_fees fees.priority_fee fees.max_fee fi).1,
           max_fee := some (resolve_type2_fees fees.priority_fee fees.max_fee fi).2 }) := by
  simp [resolve_fees]

/-- C7: in EIP-1559 mode, an unset `priority_fee` is defaulted to the gas
source's `SafeGasPrice` (a set one is kept), an unset `max_fee` is
computed as `priority_fee + baseFee` (a set one is kept), the resolved
pair is written back onto the reporter's fee fields by
`ensure_profitable`, and a later resolution starting from the stored
fields returns them unchanged regardless of new gas data. -/
theorem c7_fee_resolution (gl : ℚ) (ep : ExpectedProfit) (fees : FeeConfig)
    (tips tbr : Int) (peth ptrb : ℚ) (fi : EtherscanFeeInfo) (egs : ℚ)
    (h : costs_usd_calc (gl * (resolve_fees 2 fees fi egs).1) peth ≠ 0) :
    (∃ st : ResponseStatus,
      ensure_profitable 2 gl ep fees true (some (tips, tbr))
          (some peth) (some ptrb) fi egs =
        Except.ok (st,
          { fees with
              priority_fee := some (resolve_type2_fees fees.priority_fee fees.max_fee fi).1,
              max_fee := some (resolve_type2_fees fees.priority_fee fees.max_fee fi).2 })) ∧
    (fees.priority_fee = none →
      (resolve_type2_fees fees.priority_fee fees.max_fee fi).1 = fi.SafeGasPrice) ∧
    (∀ p, fees.priority_fee = some p →
      (resolve_type2_fees fees.priority_fee fees.max_fee fi).1 = p) ∧
    (fees.max_fee = none →
      (resolve_type2_fees fees.priority_fee fees.max_fee fi).2 =
        (resolve_type2_fees fees.priority_fee fees.max_fee fi).1 + fi.suggestBaseFee) ∧
    (∀ m, fees.max_fee = some m →
      (resolve_type2_fees fees.priority_fee fees.max_fee fi).2 = m) ∧
    (∀ (fi2 : EtherscanFeeInfo) (egs2 : ℚ),
      resolve_fees 2
        { fees with
            priority_fee := some (resolve_type2_fees fees.priority_fee fees.max_fee fi).1,
            max_fee := some (resolve_type2_fees fees.priority_fee fees.max_fee fi).2 }
        fi2 egs2 =
        ((resolve_type2_fees fees.priority_fee fees.max_fee fi).2,
         { fees with
             priority_fee := some (resolve_type2_fees fees.priority_fee fees.max_fee fi).1,
             max_fee := some (resolve_type2_fees fees.priority_fee fees.max_fee fi).2 })) := by
  refine ⟨?_, ?_, ?_, ?_, ?_, ?_⟩
  · obtain ⟨st, heq, -⟩ :=
      ensure_profitable_ok_shape 2 gl ep fees tips tbr peth ptrb fi egs h
    refine ⟨st, ?_⟩
    rw [heq, resolve_fees_type2]
  · intro hp
    simp [resolve_type2_fees, hp]
  · intro p hp
    simp [resolve_type2_fees, hp]
  · intro hm
    simp [resolve_type2_fees, hm]
  · intro m hm
    simp [resolve_type2_fees, hm]
  · intro fi2 egs2
    simp [resolve_fees, resolve_type2_fees]

/-- C7 witness: fee resolution at a concrete input with both fee fields
unset: `priority_fee` becomes `SafeGasPrice = 3`, `max_fee` becomes
`3 + 7 = 10`. -/
theorem c7_fee_resolution_witness :
    costs_usd_calc
        (350000 * (resolve_fees 2 ⟨none, none, none⟩ ⟨7, 3⟩ 0).1) 2000 ≠ 0 ∧
    ((∃ st : ResponseStatus,
      ensure_profitable 2 350000 ExpectedProfit.yolo ⟨none, none, none⟩
          true (some (0, 10 ^ 18)) (some 2000) (some 1) ⟨7, 3⟩ 0 =
        Except.ok (st,
          { (⟨none, none, none⟩ : FeeConfig) with
              priority_fee := some (resolve_type2_fees none none ⟨7, 3⟩).1,
              max_fee := some (resolve_type2_fees none none ⟨7, 3⟩).2 })) ∧
    ((none : Option ℚ) = none →
      (resolve_type2_fees none none ⟨7, 3⟩).1 = (3 : ℚ)) ∧
    (∀ p : ℚ, (none : Option ℚ) = some p →
      (resolve_type2_fees none none ⟨7, 3⟩).1 = p) ∧
    ((none : Option ℚ) = none →
      (resolve_type2_fees none none ⟨7, 3⟩).2 =
        (resolve_type2_fees none none ⟨7, 3⟩).1 + (7 : ℚ)) ∧
    (∀ m : ℚ, (none : Option ℚ) = some m →
      (resolve_type2_fees none none ⟨7, 3⟩).2 = m) ∧
    (∀ (fi2 : EtherscanFeeInfo) (egs2 : ℚ),
      resolve_fees 2
        { (⟨none, none, none⟩ : FeeConfig) with
            priority_fee := some (resolve_type2_fees none none ⟨7, 3⟩).1,
            max_fee := some (resolve_type2_fees none none ⟨7, 3⟩).2 }
        fi2 egs2 =
        ((resolve_type2_fees none none ⟨7, 3⟩).2,
         { (⟨none, none, none⟩ : FeeConfig) with
             priority_fee := some (resolve_type2_fees none none ⟨7, 3⟩).1,
             max_fee := some (resolve_type2_fees none none ⟨7, 3⟩).2 }))) :=
  ⟨by norm_num [resolve_fees, resolve_type2_fees, costs_usd_calc],
   c7_fee_resolution 350000 ExpectedProfit.yolo ⟨none, none, none⟩
     0 (10 ^ 18) 2000 1 ⟨7, 3⟩ 0
     (by norm_num [resolve_fees, resolve_type2_fees, costs_usd_calc])⟩

/-- C8: for current block `b`, the one-transaction bundle is sent
targeting exactly the five blocks `b+1 .. b+5`, and only the submission
targeting the furthest block `b+5` is kept to be awaited; the four
earlier-block submissions are dropped (fire-and-forget). -/
theorem c8_bundle_targets (b : Int) :
    (bundle b).length = 1 ∧
    bundle_target_blocks b = [b + 1, b + 2, b + 3, b + 4, b + 5] ∧
    awaited_target b = some (b + 5) ∧
    (bundle_target_blocks b).dropLast = [b + 1, b + 2, b + 3, b + 4] := by
  exact ⟨rfl, rfl, rfl, rfl⟩

/-- C9 counterexample: when the receipt lookup fails
(`TransactionNotFound`), the claim says the returned status has
`ok = false`; in the code the except-branch sets `status.error` but never
`status.ok`, so the returned status still has its default `ok = true`
(with the bundle-not-executed error message and no receipt). -/
theorem c9_counterexample :
    (submit_outcome none 42).2.1.ok = true ∧
    (submit_outcome none 42).2.1.error = some "Bundle was not executed" ∧
    (submit_outcome none 42).1 = none := by
  exact ⟨rfl, rfl, rfl⟩

/-- C9 amended: after the bundle wait, the submission step returns a
status carrying the bundle-not-executed error message, with no receipt,
exactly when the receipt lookup fails (and this is returned, not retried);
the `ok` flag however stays `true` in both branches; when the receipt is
found it is returned with a clean status and the last-submission timestamp
is reset to 0 (otherwise the timestamp is left unchanged). -/
theorem c9_submit_outcome_spec (r : Option Receipt) (ts : Int) :
    (submit_outcome r ts).1 = r ∧
    (submit_outcome r ts).2.1.ok = true ∧
    (submit_outcome r ts).2.1.error.isSome = r.isNone ∧
    (submit_outcome r ts).2.2 = (if r.isSome then 0 else ts) := by
  cases r <;> simp [submit_outcome]

/-- Keys after a defaultdict append: unchanged when the key is present,
appended at the end when fresh. -/
theorem ddAppend_keys [DecidableEq β] (m : List (β × List δ)) (q : β) (v : δ) :
    (ddAppend m q v).map (·.1) =
      if q ∈ m.map (·.1) then m.map (·.1) else m.map (·.1) ++ [q] := by
  induction m with
  | nil => simp [ddAppend]
  | cons e rest ih =>
    obtain ⟨q', l⟩ := e
    by_cases hq : q' = q
    · subst hq
      simp [ddAppend]
    · simp only [ddAppend, if_neg hq, List.map_cons, ih]
      by_cases hmem : q ∈ rest.map (·.1)
      · simp [hmem, hq]
      · simp [hmem, hq, Ne.symm hq]

/-- Membership form of `ddAppend_keys`. -/
theorem ddAppend_mem_keys [DecidableEq β] (m : List (β × List δ))
    (q q' : β) (v : δ) :
    (q' ∈ (ddAppend m q v).map (·.1)) ↔ q' ∈ m.map (·.1) ∨ q' = q := by
  rw [ddAppend_keys]
  split_ifs with h
  · exact ⟨Or.inl, fun h' => h'.elim id (fun e => e ▸ h)⟩
  · simp [List.mem_append]

/-- A defaultdict append keeps the keys without duplicates. -/
theorem ddAppend_nodup_keys [DecidableEq β] {m : List (β × List δ)}
    (h : (m.map (·.1)).Nodup) (q : β) (v : δ) :
    ((ddAppend m q v).map (·.1)).Nodup := by
  rw [ddAppend_keys]
  split_ifs with hq
  · exact h
  · simp [List.nodup_append, h, hq]

/-- Looking up the appended key returns its old list (empty when absent)
extended with the new value. -/
theorem pyLookup_ddAppend_self [DecidableEq β] (m : List (β × List δ))
    (q : β) (v : δ) :
    pyLookup (ddAppend m q v) q = some ((pyLookup m q).getD [] ++ [v]) := by
  induction m with
  | nil => simp [ddAppend, pyLookup]
  | cons e rest ih =>
    obtain ⟨q', l⟩ := e
    by_cases hq : q' = q
    · subst hq
      simp [ddAppend, pyLookup]
    · simp only [ddAppend, if_neg hq]
      simp only [pyLookup] at ih ⊢
      simp [List.find?_cons, hq, ih]

/-- Looking up any other key is unchanged by a defaultdict append. -/
theorem pyLookup_ddAppend_ne [DecidableEq β] (m : List (β × List δ))
    {q q' : β} (h : q' ≠ q) (v : δ) :
    pyLookup (ddAppend m q v) q' = pyLookup m q' := by
  induction m with
  | nil => simp [ddAppend, pyLookup, List.find?_cons, Ne.symm h]
  | cons e rest ih =>
    obtain ⟨qe, l⟩ := e
    by_cases hq : qe = q
    · subst hq
      simp [ddAppend, pyLookup, List.find?_cons, Ne.symm h]
    · by_cases hq' : qe = q'
      · subst hq'
        simp [ddAppend, hq, pyLookup, List.find?_cons]
      · simp only [pyLookup] at ih ⊢
        simp [ddAppend, hq, List.find?_cons, hq', ih]

/-- In a list with duplicate-free keys, `pyLookup` of an entry's key finds
exactly that entry's value (the Python dict lookup). -/
theorem pyLookup_of_mem [DecidableEq κ] {m : List (κ × γ)}
    (hnd : (m.map (·.1)).Nodup) {k : κ} {v : γ} (hm : (k, v) ∈ m) :
    pyLookup m k = some v := by
  induction m with
  | nil => cases hm
  | cons e rest ih =>
    obtain ⟨k', v'⟩ := e
    rcases List.mem_cons.mp hm with heq | hmem
    · obtain ⟨h1, h2⟩ := Prod.mk.injEq .. ▸ heq
      subst h1; subst h2
      simp [pyLookup, List.find?_cons]
    · have hk : k' ≠ k := by
        intro hkk
        subst hkk
        have : k' ∈ rest.map (·.1) := List.mem_map.mpr ⟨(k', v), hmem, rfl⟩
        simp only [List.map_cons, List.nodup_cons] at hnd
        exact hnd.1 this
      have hrest : (rest.map (·.1)).Nodup := by
        simp only [List.map_cons, List.nodup_cons] at hnd
        exact hnd.2
      simp only [pyLookup] at ih ⊢
      simp [List.find?_cons, hk, ih hrest hmem]

/-- The keys of `data` whose second component is `q`, in insertion order:
what the first loop of `filter_batch_result` accumulates under `q`. -/
def gvals [DecidableEq β] (data : List ((α × β) × γ)) (q : β) :
    List (α × β) :=
  (data.filter (fun e => decide (e.1.2 = q))).map (·.1)

/-- The values of `data` at keys whose second component is `q`, in
insertion order: what the claim says the output maps `q` to. -/
def group_vals [DecidableEq β] (data : List ((α × β) × γ)) (q : β) :
    List γ :=
  (data.filter (fun e => decide (e.1.2 = q))).map (·.2)

/-- Invariant of the grouping loop, generalized over the accumulator:
after folding `data`, the list stored under `q` is whatever it was before
followed by the keys of `data` whose second component is `q`. -/
theorem fbr_mapping_go_lookup [DecidableEq α] [DecidableEq β] :
    ∀ (data : List ((α × β) × γ)) (m : List (β × List (α × β))) (q : β),
      (pyLookup (data.foldl (fun m e => ddAppend m e.1.2 e.1) m) q).getD [] =
        (pyLookup m q).getD [] ++ gvals data q := by
  intro data
  induction data with
  | nil => intro m q; simp [gvals]
  | cons e rest ih =>
    intro m q
    simp only [List.foldl_cons]
    rw [ih]
    by_cases hq : e.1.2 = q
    · rw [hq, pyLookup_ddAppend_self]
      simp [gvals, List.filter_cons, hq]
    · rw [pyLookup_ddAppend_ne m (fun hc => hq hc.symm)]
      simp [gvals, List.filter_cons, hq]

/-- Keys accumulated by the grouping loop: the initial keys plus the
second components occurring in `data`. -/
theorem fbr_mapping_go_keys [DecidableEq α] [DecidableEq β] :
    ∀ (data : List ((α × β) × γ)) (m : List (β × List (α × β))) (q : β),
      (q ∈ (data.foldl (fun m e => ddAppend m e.1.2 e.1) m).map (·.1)) ↔
        (q ∈ m.map (·.1) ∨ q ∈ data.map (·.1.2)) := by
  intro data
  induction data with
  | nil => intro m q; simp
  | cons e rest ih =>
    intro m q
    simp only [List.foldl_cons, List.map_cons, List.mem_cons]
    rw [ih, ddAppend_mem_keys]
    tauto

/-- The grouping loop never creates duplicate keys. -/
theorem fbr_mapping_go_nodup [DecidableEq α] [DecidableEq β] :
    ∀ (data : List ((α × β) × γ)) (m : List (β × List (α × β))),
      (m.map (·.1)).Nodup →
      ((data.foldl (fun m e => ddAppend m e.1.2 e.1) m).map (·.1)).Nodup := by
  intro data
  induction data with
  | nil => intro m h; exact h
  | cons e rest ih =>
    intro m h
    exact ih _ (ddAppend_nodup_keys h _ _)

/-- Every entry of `fbr_mapping data` stores exactly the keys of `data`
grouped under its query id, and its query id occurs in `data`. -/
theorem fbr_mapping_entry [DecidableEq α] [DecidableEq β]
    {data : List ((α × β) × γ)} {q : β} {ks : List (α × β)}
    (hm : (q, ks) ∈ fbr_mapping data) :
    ks = gvals data q ∧ q ∈ data.map (·.1.2) := by
  have hnd : ((fbr_mapping data).map (·.1)).Nodup :=
    fbr_mapping_go_nodup data [] (by simp)
  have hl : pyLookup (fbr_mapping data) q = some ks := pyLookup_of_mem hnd hm
  have hgo := fbr_mapping_go_lookup data [] q
  rw [show (data.foldl (fun m e => ddAppend m e.1.2 e.1) [] : List (β × List (α × β))) =
        fbr_mapping data from rfl, hl] at hgo
  simp only [pyLookup, List.find?_nil, Option.map_none, Option.getD_none,
    List.nil_append, Option.getD_some] at hgo
  refine ⟨hgo, ?_⟩
  have hk : q ∈ (fbr_mapping data).map (·.1) :=
    List.mem_map.mpr ⟨(q, ks), hm, rfl⟩
  have := (fbr_mapping_go_keys data [] q).mp hk
  simpa using this

/-- Appending under a fresh key adds a new singleton entry at the end. -/
theorem ddAppend_not_mem [DecidableEq β] {res : List (β × List δ)} {q : β}
    (h : q ∉ res.map (·.1)) (v : δ) :
    ddAppend res q v = res ++ [(q, [v])] := by
  induction res with
  | nil => rfl
  | cons e rest ih =>
    obtain ⟨q', l⟩ := e
    simp only [List.map_cons, List.mem_cons] at h
    push_neg at h
    simp [ddAppend, Ne.symm h.1, ih h.2]

/-- Appending under the key of the last entry extends that entry in
place, when the key occurs nowhere earlier. -/
theorem ddAppend_last [DecidableEq β] {res : List (β × List δ)} {q : β}
    (h : q ∉ res.map (·.1)) (l : List δ) (v : δ) :
    ddAppend (res ++ [(q, l)]) q v = res ++ [(q, l ++ [v])] := by
  induction res with
  | nil => simp [ddAppend]
  | cons e rest ih =>
    obtain ⟨q', l'⟩ := e
    simp only [List.map_cons, List.mem_cons] at h
    push_neg at h
    simp [ddAppend, Ne.symm h.1, ih h.2]

/-- Folding a list of values into a fresh key builds exactly one entry at
the end holding those values in order. -/
theorem foldl_ddAppend_fresh [DecidableEq β] {res : List (β × List δ)}
    {q : β} (h : q ∉ res.map (·.1)) :
    ∀ (vs : List δ) (l : List δ),
      vs.foldl (fun r v => ddAppend r q v) (res ++ [(q, l)]) =
        res ++ [(q, l ++ vs)] := by
  intro vs
  induction vs with
  | nil => intro l; simp
  | cons v tl ih =>
    intro l
    simp only [List.foldl_cons]
    rw [ddAppend_last h, ih (l ++ [v])]
    simp

/-- As `foldl_ddAppend_fresh`, starting from no entry: a nonempty value
list becomes one fresh entry at the end. -/
theorem foldl_ddAppend_of_ne_nil [DecidableEq β] {res : List (β × List δ)}
    {q : β} (h : q ∉ res.map (·.1)) {vs : List δ} (hvs : vs ≠ []) :
    vs.foldl (fun r v => ddAppend r q v) res = res ++ [(q, vs)] := by
  cases vs with
  | nil => exact absurd rfl hvs
  | cons v tl =>
    simp only [List.foldl_cons]
    rw [ddAppend_not_mem h, foldl_ddAppend_fresh h tl [v]]
    simp

/-- The rebuild loop body over a list of keys drawn from `data`: every
dict lookup succeeds, so the step returns `ok` and just folds the paired
values in. -/
theorem fbr_step_ok [DecidableEq α] [DecidableEq β]
    (data : List ((α × β) × γ)) (hnd : (data.map (·.1)).Nodup) (q : β) :
    ∀ (entries : List ((α × β) × γ)), (∀ e ∈ entries, e ∈ data) →
      ∀ (res : List (β × List γ)),
        fbr_step data res (q, entries.map (·.1)) =
          Except.ok (entries.foldl (fun r e => ddAppend r q e.2) res) := by
  intro entries
  induction entries with
  | nil => intro _ res; rfl
  | cons e tl ih =>
    intro hsub res
    have he : (e.1, e.2) ∈ data := by
      rw [Prod.mk.eta]
      exact hsub e (List.mem_cons_self e tl)
    have hl : pyLookup data e.1 = some e.2 := pyLookup_of_mem hnd he
    have htl : ∀ x ∈ tl, x ∈ data := fun x hx =>
      hsub x (List.mem_cons_of_mem e hx)
    simp only [fbr_step, List.map_cons, List.foldlM_cons, hl, List.foldl_cons]
    have := ih htl (ddAppend res q e.2)
    simp only [fbr_step] at this
    exact this

/-- Folding entries through `ddAppend` of their values equals folding the
projected value list. -/
theorem foldl_ddAppend_map [DecidableEq β] (q : β)
    (entries : List ((α × β) × γ)) :
    ∀ (res : List (β × List γ)),
      entries.foldl (fun r e => ddAppend r q e.2) res =
        (entries.map (·.2)).foldl (fun r v => ddAppend r q v) res := by
  induction entries with
  | nil => intro res; rfl
  | cons e tl ih => intro res; simp [ih]

/-- The rebuild loop over a list of well-formed grouped entries with
fresh, duplicate-free keys appends, for each entry, one output entry
holding the grouped values of `data` under that key. -/
theorem fbr_outer [DecidableEq α] [DecidableEq β]
    (data : List ((α × β) × γ)) (hnd : (data.map (·.1)).Nodup) :
    ∀ (ms : List (β × List (α × β))) (res : List (β × List γ)),
      (∀ p ∈ ms, p.2 = gvals data p.1 ∧ p.2 ≠ []) →
      (ms.map (·.1)).Nodup →
      (∀ q ∈ ms.map (·.1), q ∉ res.map (·.1)) →
      ms.foldlM (fbr_step data) res =
        Except.ok (res ++ ms.map (fun p => (p.1, group_vals data p.1))) := by
  intro ms
  induction ms with
  | nil => intro res _ _ _; simp; rfl
  | cons e tl ih =>
    intro res hent hnd2 hdisj
    obtain ⟨q, ks⟩ := e
    obtain ⟨hks, hne⟩ := hent (q, ks) (List.mem_cons_self _ _)
    simp only at hks hne
    have hqres : q ∉ res.map (·.1) :=
      hdisj q (by simp)
    have hfil : gvals data q = (data.filter (fun e => decide (e.1.2 = q))).map (·.1) := rfl
    have hstep : fbr_step data res (q, ks) =
        Except.ok (res ++ [(q, group_vals data q)]) := by
      rw [hks, hfil,
        fbr_step_ok data hnd q (data.filter (fun e => decide (e.1.2 = q)))
          (fun x hx => List.mem_of_mem_filter hx) res]
      congr 1
      rw [foldl_ddAppend_map]
      have hgne : group_vals data q ≠ [] := by
        intro hg
        apply hne
        rw [hks] at hne ⊢
        rw [hfil]
        simp only [group_vals] at hg
        simp only [List.map_eq_nil_iff] at hg ⊢
        exact hg
      exact foldl_ddAppend_of_ne_nil hqres hgne
    have hdisj' : ∀ q' ∈ tl.map (·.1),
        q' ∉ (res ++ [(q, group_vals data q)]).map (·.1) := by
      intro q' hq'
      simp only [List.map_append, List.map_cons, List.map_nil,
        List.mem_append, List.mem_singleton]
      push_neg
      refine ⟨hdisj q' (by simp [hq']), ?_⟩
      intro hqq
      subst hqq
      simp only [List.map_cons, List.nodup_cons] at hnd2
      exact hnd2.1 hq'
    have hnd2' : (tl.map (·.1)).Nodup := by
      simp only [List.map_cons, List.nodup_cons] at hnd2
      exact hnd2.2
    have hent' : ∀ p ∈ tl, p.2 = gvals data p.1 ∧ p.2 ≠ [] := fun p hp =>
      hent p (List.mem_cons_of_mem _ hp)
    calc ((q, ks) :: tl).foldlM (fbr_step data) res
        = fbr_step data res (q, ks) >>= tl.foldlM (fbr_step data) := by
          simp [List.foldlM_cons]
      _ = tl.foldlM (fbr_step data) (res ++ [(q, group_vals data q)]) := by
          rw [hstep]; rfl
      _ = Except.ok ((res ++ [(q, group_vals data q)]) ++
            tl.map (fun p => (p.1, group_vals data p.1))) :=
          ih _ hent' hnd2' hdisj'
      _ = Except.ok (res ++
            ((q, ks) :: tl).map (fun p => (p.1, group_vals data p.1))) := by
          simp

/-- Sum of a pointwise sum of two maps splits. -/
theorem sum_map_add {f g : β → ℕ} :
    ∀ (K : List β), (K.map (fun q => f q + g q)).sum =
      (K.map f).sum + (K.map g).sum := by
  intro K
  induction K with
  | nil => rfl
  | cons k tl ih => simp [ih]; omega

/-- An indicator summed over a list avoiding `x` is zero. -/
theorem sum_map_ite_eq_zero [DecidableEq β] {x : β} :
    ∀ {K : List β}, x ∉ K →
      (K.map (fun q => if x = q then (1 : ℕ) else 0)).sum = 0 := by
  intro K
  induction K with
  | nil => intro _; rfl
  | cons k tl ih =>
    intro h
    simp only [List.mem_cons] at h
    push_neg at h
    simp [h.1, ih h.2]

/-- An indicator summed over a duplicate-free list containing `x` is one. -/
theorem sum_map_ite_eq_one [DecidableEq β] {x : β} :
    ∀ {K : List β}, K.Nodup → x ∈ K →
      (K.map (fun q => if x = q then (1 : ℕ) else 0)).sum = 1 := by
  intro K
  induction K with
  | nil => intro _ h; cases h
  | cons k tl ih =>
    intro hnd hx
    simp only [List.nodup_cons] at hnd
    rcases List.mem_cons.mp hx with heq | hmem
    · subst heq
      simp [sum_map_ite_eq_zero hnd.1]
    · have hxk : x ≠ k := fun hc => hnd.1 (hc ▸ hmem)
      simp [Ne.symm hxk, hxk, ih hnd.2 hmem]

/-- Grouping partitions: summing, over a duplicate-free key list covering
all second components, the number of entries of `data` under each key
recovers the number of entries of `data`. -/
theorem sum_filter_lengths [DecidableEq β] :
    ∀ (data : List ((α × β) × γ)) (K : List β), K.Nodup →
      (∀ e ∈ data, e.1.2 ∈ K) →
      (K.map
        (fun q => (data.filter (fun e => decide (e.1.2 = q))).length)).sum =
        data.length := by
  intro data
  induction data with
  | nil => intro K _ _; simp
  | cons e tl ih =>
    intro K hK hmem
    have he : e.1.2 ∈ K := hmem e (List.mem_cons_self _ _)
    have hcong : K.map
        (fun q => ((e :: tl).filter (fun x => decide (x.1.2 = q))).length) =
        K.map (fun q => (if e.1.2 = q then 1 else 0) +
          ((tl.filter (fun x => decide (x.1.2 = q))).length)) := by
      apply List.map_congr_left
      intro q _
      by_cases h : e.1.2 = q
      · simp [List.filter_cons, h, Nat.add_comm]
      · simp [List.filter_cons, h]
    rw [hcong, sum_map_add, sum_map_ite_eq_one hK he,
      ih K hK (fun x hx => hmem x (List.mem_cons_of_mem e hx))]
    simp [Nat.add_comm]

/-- C10: on any input dictionary (association list with duplicate-free
keys, each key a 2-tuple), `filter_batch_result` succeeds and returns a
mapping whose keys are exactly the distinct second tuple components,
without duplicates, each sent to precisely the values of the input entries
whose key has that second component, in input order (`group_vals`); in
particular the output value lists together hold exactly as many values as
the input has entries. -/
theorem c10_filter_batch_result [DecidableEq α] [DecidableEq β]
    (data : List ((α × β) × γ)) (hnd : (data.map (·.1)).Nodup) :
    ∃ out : List (β × List γ),
      filter_batch_result data = Except.ok out ∧
      (out.map (·.1)).Nodup ∧
      (∀ q : β, q ∈ out.map (·.1) ↔ q ∈ data.map (·.1.2)) ∧
      (∀ (q : β) (l : List γ), (q, l) ∈ out → l = group_vals data q) ∧
      (out.map (fun p => p.2.length)).sum = data.length := by
  have hmnd : ((fbr_mapping data).map (·.1)).Nodup :=
    fbr_mapping_go_nodup data [] (by simp)
  have hkeys : ∀ q : β,
      q ∈ (fbr_mapping data).map (·.1) ↔ q ∈ data.map (·.1.2) := by
    intro q
    have := fbr_mapping_go_keys data [] q
    simpa using this
  have hent : ∀ p ∈ fbr_mapping data, p.2 = gvals data p.1 ∧ p.2 ≠ [] := by
    intro p hp
    have hp' : (p.1, p.2) ∈ fbr_mapping data := by
      rw [Prod.mk.eta]; exact hp
    obtain ⟨h1, h2⟩ := fbr_mapping_entry hp'
    refine ⟨h1, ?_⟩
    rw [h1]
    intro hg
    rcases List.mem_map.mp h2 with ⟨e, he, heq⟩
    have : e ∈ data.filter (fun x => decide (x.1.2 = p.1)) :=
      List.mem_filter.mpr ⟨he, by simp [heq]⟩
    rw [show gvals data p.1 =
        (data.filter (fun x => decide (x.1.2 = p.1))).map (·.1) from rfl] at hg
    rcases List.map_eq_nil_iff.mp hg with hnil
    rw [hnil] at this
    cases this
  refine ⟨(fbr_mapping data).map (fun p => (p.1, group_vals data p.1)),
    ?_, ?_, ?_, ?_, ?_⟩
  · have := fbr_outer data hnd (fbr_mapping data) [] hent hmnd (by simp)
    simpa [filter_batch_result] using this
  · have : ((fbr_mapping data).map (fun p => (p.1, group_vals data p.1))).map
        (·.1) = (fbr_mapping data).map (·.1) := by
      simp [List.map_map, Function.comp]
    rw [this]
    exact hmnd
  · intro q
    have : ((fbr_mapping data).map (fun p => (p.1, group_vals data p.1))).map
        (·.1) = (fbr_mapping data).map (·.1) := by
      simp [List.map_map, Function.comp]
    rw [this]
    exact hkeys q
  · intro q l hql
    rcases List.mem_map.mp hql with ⟨p, _, heq⟩
    obtain ⟨h1, h2⟩ := Prod.mk.injEq .. ▸ heq
    rw [← h1, ← h2]
  · have hcomp : ((fbr_mapping data).map
        (fun p => (p.1, group_vals data p.1))).map (fun p => p.2.length) =
        (fbr_mapping data).map (fun p => (group_vals data p.1).length) := by
      simp [List.map_map, Function.comp]
    rw [hcomp]
    have hlen : (fbr_mapping data).map
        (fun p => (group_vals data p.1).length) =
        ((fbr_mapping data).map (·.1)).map
          (fun q => (data.filter (fun e => decide (e.1.2 = q))).length) := by
      simp [List.map_map, Function.comp, group_vals]
    rw [hlen]
    exact sum_filter_lengths data ((fbr_mapping data).map (·.1)) hmnd
      (fun e he => (hkeys e.1.2).mpr (List.mem_map.mpr ⟨e, he, rfl⟩))

/-- C10 witness: `filter_batch_result` evaluated at the concrete
dictionary `[((1,10),100), ((2,10),200), ((3,20),300)]`. -/
theorem c10_filter_batch_result_witness :
    (([((1, 10), 100), ((2, 10), 200), ((3, 20), 300)] :
        List ((ℕ × ℕ) × ℕ)).map (·.1)).Nodup ∧
    ∃ out : List (ℕ × List ℕ),
      filter_batch_result
          ([((1, 10), 100), ((2, 10), 200), ((3, 20), 300)] :
            List ((ℕ × ℕ) × ℕ)) = Except.ok out ∧
      (out.map (·.1)).Nodup ∧
      (∀ q : ℕ, q ∈ out.map (·.1) ↔
        q ∈ ([((1, 10), 100), ((2, 10), 200), ((3, 20), 300)] :
          List ((ℕ × ℕ) × ℕ)).map (·.1.2)) ∧
      (∀ (q : ℕ) (l : List ℕ), (q, l) ∈ out →
        l = group_vals
          ([((1, 10), 100), ((2, 10), 200), ((3, 20), 300)] :
            List ((ℕ × ℕ) × ℕ)) q) ∧
      (out.map (fun p => p.2.length)).sum =
        ([((1, 10), 100), ((2, 10), 200), ((3, 20), 300)] :
          List ((ℕ × ℕ) × ℕ)).length :=
  ⟨by decide,
   c10_filter_batch_result
     ([((1, 10), 100), ((2, 10), 200), ((3, 20), 300)] :
       List ((ℕ × ℕ) × ℕ)) (by decide)⟩

end Telliot
